import Mathlib

/-!
A verification development for the street-survey capture/publish pipeline.

The definitions below are a shallow embedding of the program's storage
layer (`storage.js`) and publish coordinator (`publisher.js`):

* IndexedDB object stores become lists inside a `StoreState` record; a
  transaction becomes one total (or `Except`-valued) state transition, so
  a transaction that aborts leaves the state unchanged.
* Timestamps (`Date.now()`, ISO strings) become `Nat` parameters threaded
  into the operations that read the clock.
* An image `Blob` / `ArrayBuffer` is modelled by its byte count
  (`Option Nat`: `none` when the field is absent).
* The remote content store (GitHub Contents API) becomes a path-indexed
  association list; the download URL returned by the API is modelled by
  the path itself.
* The outcome of one network attempt is an oracle parameter
  (`Nat → UpOutcome` for the retry loop, `Capture → ItemOutcome` for the
  drain loop), so retry/backoff/drain logic is proved for every possible
  pattern of network results.
-/

deriving instance DecidableEq for Except

namespace StreetSurvey

/-- Session lifecycle states (`status` field in `storage.js`). -/
inductive SessionStatus
  | recording
  | paused
  | stopped
  | publishing
  | published
  | partially_published
  deriving Repr, DecidableEq

/-- One sequence gap found by `findSequenceGaps` (storage.js:415-429). -/
structure Gap where
  after : Nat
  before : Nat
  missing : Int
  deriving Repr, DecidableEq

/-- The `recoveryInfo` object attached by `checkForRecovery` (storage.js:533-537). -/
structure RecoveryInfo where
  potentialMissedFrames : Int
  lastCaptureTime : Option Nat
  gaps : List Gap
  deriving Repr, DecidableEq

/-- A session record (`createSession`, storage.js:120-137). `avgImageSize`
is a JS float division; it is modelled exactly, as a rational. -/
structure Session where
  id : String
  name : String
  createdAt : String
  status : SessionStatus
  captureCount : Nat
  totalBytes : Nat
  avgImageSize : Rat
  duration : Nat
  startTime : Nat
  lastCaptureTime : Option Nat
  recoveryInfo : Option RecoveryInfo := none
  deriving Repr, DecidableEq

/-- A persisted capture record. `id` is the store-assigned auto-increment
key; `imageData` (new format, ArrayBuffer byte length) and `imageBlob`
(legacy format, Blob size) model the two image payload fields. -/
structure Capture where
  id : Nat
  sessionId : String
  sequenceNum : Nat
  timestamp : Nat
  imageData : Option Nat := none
  imageBlob : Option Nat := none
  imageSizeBytes : Nat
  published : Bool := false
  publishedUrl : Option String := none
  deriving Repr, DecidableEq

/-- The capture record as pushed by the capture producer (before the store
assigns an id): the argument of `saveCapture` (storage.js:285). -/
structure CaptureInput where
  sessionId : String
  sequenceNum : Nat
  timestamp : Nat
  imageData : Option Nat := none
  imageBlob : Option Nat := none
  imageSizeBytes : Nat
  published : Bool := false
  publishedUrl : Option String := none
  deriving Repr, DecidableEq

/-- The per-session publish-state record (`savePublishState`). -/
structure PublishState where
  sessionId : String
  publishStarted : Nat
  totalToUpload : Nat
  completed : Nat
  failed : Nat
  inProgress : Bool
  completedAt : Option Nat := none
  deriving Repr, DecidableEq

/-- The durable store: the four IndexedDB object stores of
`SensorCollectorDB` (settings are not claim-relevant and omitted), plus
the auto-increment counter of the `captures` store. -/
structure StoreState where
  sessions : List Session
  captures : List Capture
  publishStates : List PublishState
  nextCaptureId : Nat
  deriving Repr, DecidableEq

/-- Local transaction failures (`StorageError` taxonomy). -/
inductive StorageError
  | constraintViolation
  | captureNotFound
  deriving Repr, DecidableEq

/-- `getSession` (storage.js:152-161): point lookup by session id. -/
def getSession (st : StoreState) (sessionId : String) : Option Session :=
  st.sessions.find? (fun s => s.id == sessionId)

/-- `updateSession` (storage.js:166-175): IndexedDB `put` semantics —
replace the record with the same key, or insert it if absent. -/
def updateSession (st : StoreState) (s : Session) : StoreState :=
  { st with sessions :=
      if st.sessions.any (fun t => t.id == s.id) then
        st.sessions.map (fun t => if t.id == s.id then s else t)
      else
        st.sessions ++ [s] }

/-- `savePublishState` (storage.js:438-447): `put` keyed by sessionId. -/
def savePublishState (st : StoreState) (ps : PublishState) : StoreState :=
  { st with publishStates :=
      if st.publishStates.any (fun t => t.sessionId == ps.sessionId) then
        st.publishStates.map (fun t => if t.sessionId == ps.sessionId then ps else t)
      else
        st.publishStates ++ [ps] }

/-- `getPublishState` (storage.js:452-461). -/
def getPublishState (st : StoreState) (sessionId : String) : Option PublishState :=
  st.publishStates.find? (fun p => p.sessionId == sessionId)

/-- The captures persisted for a given session id. -/
def capturesFor (captures : List Capture) (sessionId : String) : List Capture :=
  captures.filter (fun c => c.sessionId == sessionId)

/-- The session-aggregate update performed inside `saveCapture`'s
transaction (storage.js:297-307): bump `captureCount`, add the image
size to `totalBytes`, recompute `avgImageSize`, refresh
`lastCaptureTime` and `duration`. -/
def applyCaptureStats (s : Session) (ci : CaptureInput) (now : Nat) : Session :=
  let captureCount := s.captureCount + 1
  let totalBytes := s.totalBytes + ci.imageSizeBytes
  { s with
    captureCount := captureCount
    totalBytes := totalBytes
    avgImageSize := (totalBytes : Rat) / (captureCount : Rat)
    lastCaptureTime := some ci.timestamp
    duration := (now - s.startTime) / 1000 }

/-- The stored capture built from a producer record and the
auto-increment key. -/
def mkCapture (id : Nat) (ci : CaptureInput) : Capture :=
  { id := id
    sessionId := ci.sessionId
    sequenceNum := ci.sequenceNum
    timestamp := ci.timestamp
    imageData := ci.imageData
    imageBlob := ci.imageBlob
    imageSizeBytes := ci.imageSizeBytes
    published := ci.published
    publishedUrl := ci.publishedUrl }

/-- `saveCapture` (storage.js:285-312): one readwrite transaction over
`captures` and `sessions`. The unique `sessionSequence` index
(storage.js:46) aborts the whole transaction on a duplicate
`(sessionId, sequenceNum)` pair; otherwise the capture is inserted and —
when the owning session exists — the session aggregates are updated in
the same transaction. Resolves with the store-assigned capture id. -/
def saveCapture (st : StoreState) (ci : CaptureInput) (now : Nat) :
    Except StorageError (StoreState × Nat) :=
  if st.captures.any (fun c => c.sessionId == ci.sessionId && c.sequenceNum == ci.sequenceNum) then
    .error .constraintViolation
  else
    .ok
      ({ st with
          captures := st.captures ++ [mkCapture st.nextCaptureId ci]
          sessions := st.sessions.map (fun s =>
            if s.id == ci.sessionId then applyCaptureStats s ci now else s)
          nextCaptureId := st.nextCaptureId + 1 },
        st.nextCaptureId)

/-- The state reached after one `saveCapture` call: a failed transaction
leaves the store unchanged. -/
def saveCaptureStep (st : StoreState) (ci : CaptureInput) (now : Nat) : StoreState :=
  match saveCapture st ci now with
  | .ok (st', _) => st'
  | .error _ => st

/-- A sequence of `saveCapture` calls, each with its own clock reading. -/
def applySaves (st : StoreState) (ops : List (CaptureInput × Nat)) : StoreState :=
  ops.foldl (fun acc op => saveCaptureStep acc op.1 op.2) st

/-- The C1 aggregate invariant for one session record: `captureCount` is
the number of persisted captures with this session's id, and
`totalBytes` is the sum of their `imageSizeBytes`. -/
def aggregatesConsistent (st : StoreState) (s : Session) : Prop :=
  s.captureCount = (capturesFor st.captures s.id).length ∧
  s.totalBytes = ((capturesFor st.captures s.id).map (fun c => c.imageSizeBytes)).sum

instance (st : StoreState) (s : Session) : Decidable (aggregatesConsistent st s) := by
  unfold aggregatesConsistent; infer_instance

/-- The C1 invariant for every session in the store. -/
def storeConsistent (st : StoreState) : Prop :=
  ∀ s ∈ st.sessions, aggregatesConsistent st s

instance (st : StoreState) : Decidable (storeConsistent st) := by
  unfold storeConsistent; infer_instance

/-- `deleteSession` (storage.js:231-259): one readwrite transaction over
`sessions`, `captures` and `publishState` that deletes the session
record, cursor-deletes every capture with this session id, and deletes
the publish-state record. -/
def deleteSession (st : StoreState) (sessionId : String) : StoreState :=
  { st with
    sessions := st.sessions.filter (fun s => !(s.id == sessionId))
    captures := st.captures.filter (fun c => !(c.sessionId == sessionId))
    publishStates := st.publishStates.filter (fun p => !(p.sessionId == sessionId)) }

/-- `markCapturePublished` (storage.js:391-410): read-modify-write of one
capture record; rejects when the capture id is absent. -/
def markCapturePublished (st : StoreState) (captureId : Nat) (publishedUrl : String) :
    Except StorageError StoreState :=
  match st.captures.find? (fun c => c.id == captureId) with
  | none => .error .captureNotFound
  | some _ =>
      .ok { st with captures := st.captures.map (fun c =>
              if c.id == captureId then
                { c with published := true, publishedUrl := some publishedUrl }
              else c) }

/-- Ordered insertion by `sequenceNum`, the building block of the
model of `Array.prototype.sort((a, b) => a.sequenceNum - b.sequenceNum)`
(a stable comparison sort). -/
def insertBySeq (c : Capture) : List Capture → List Capture
  | [] => [c]
  | d :: ds => if c.sequenceNum ≤ d.sequenceNum then c :: d :: ds else d :: insertBySeq c ds

/-- Stable sort by ascending `sequenceNum`. -/
def sortBySeq : List Capture → List Capture
  | [] => []
  | c :: cs => insertBySeq c (sortBySeq cs)

/-- `getSessionCaptures` (storage.js:317-331): all captures of a session,
sorted by ascending sequence number. -/
def getSessionCaptures (st : StoreState) (sessionId : String) : List Capture :=
  sortBySeq (capturesFor st.captures sessionId)

/-- `getUnpublishedCaptures` (storage.js:351-372): the session's captures
with `published` false, sorted by ascending sequence number. -/
def getUnpublishedCaptures (st : StoreState) (sessionId : String) : List Capture :=
  sortBySeq (st.captures.filter (fun c => c.sessionId == sessionId && !c.published))

/-- `findSequenceGaps` (storage.js:415-429): walk adjacent pairs of the
(sorted) capture list; every pair whose actual sequence number differs
from `previous + 1` yields a gap `{after, before, missing}` with
`missing = actual - expected`. -/
def findSequenceGaps (captures : List Capture) : List Gap :=
  (captures.zip captures.tail).filterMap (fun pc =>
    let expected := pc.1.sequenceNum + 1
    let actual := pc.2.sequenceNum
    if actual ≠ expected then
      some { after := pc.1.sequenceNum, before := actual,
             missing := (actual : Int) - (expected : Int) }
    else none)

/-- `getSessionsByStatus` (storage.js:204-226) for a list of statuses. -/
def getSessionsByStatus (st : StoreState) (statuses : List SessionStatus) : List Session :=
  statuses.flatMap (fun status => st.sessions.filter (fun s => s.status == status))

/-- The in-memory session update performed by `checkForRecovery` for one
active session (storage.js:528-542): compute the gaps of its ordered
captures, attach `recoveryInfo` when at least one gap was found, and
demote the status to `paused`. -/
def recoverySessionUpdate (st : StoreState) (s : Session) : Session :=
  let captures := getSessionCaptures st s.id
  let gaps := findSequenceGaps captures
  let info : RecoveryInfo :=
    { potentialMissedFrames := (gaps.map (fun g => g.missing)).sum
      lastCaptureTime := (captures.getLast?).map (fun c => c.timestamp)
      gaps := gaps }
  let s1 := if gaps.length > 0 then { s with recoveryInfo := some info } else s
  { s1 with status := SessionStatus.paused }

/-- `checkForRecovery` (storage.js:524-548): for each session whose
status is `recording` or `publishing`, build its recovery update,
persist it with `updateSession`, and collect it into the result list. -/
def checkForRecovery (st : StoreState) : StoreState × List Session :=
  (getSessionsByStatus st [SessionStatus.recording, SessionStatus.publishing]).foldl
    (fun acc s =>
      let s' := recoverySessionUpdate acc.1 s
      (updateSession acc.1 s', acc.2 ++ [s']))
    (st, [])

/-! ### Publisher (publisher.js) -/

/-- The relevant responses of the remote GitHub API during validation:
HTTP status of the `/user` probe, status of the repository probe, the
`permissions.push` flag of the repository, and the remaining core rate
limit. -/
structure GitHubEnv where
  userStatus : Nat
  repoStatus : Nat
  pushPermission : Bool
  rateRemaining : Nat
  deriving Repr, DecidableEq

/-- The result shape of `validateGitHubAccess`. -/
structure ValidationResult where
  valid : Bool
  errors : List String
  deriving Repr, DecidableEq

/-- `response.ok`: HTTP status in `[200, 300)`. -/
def httpOk (status : Nat) : Bool := 200 ≤ status && status < 300

/-- `validateGitHubAccess` (publisher.js:61-142): token probe, repository
probe, write-permission check, then the rate-limit quota check (the only
check that does not return early). `valid` is `errors.length === 0`. -/
def validateGitHubAccess (env : GitHubEnv) : ValidationResult :=
  if env.userStatus == 401 then
    { valid := false, errors := ["GitHub token is invalid or expired"] }
  else if !httpOk env.userStatus then
    { valid := false, errors := ["GitHub API error: " ++ toString env.userStatus] }
  else if env.repoStatus == 404 then
    { valid := false, errors := ["Repository not found or no access"] }
  else if !httpOk env.repoStatus then
    { valid := false, errors := ["Repository access error: " ++ toString env.repoStatus] }
  else if !env.pushPermission then
    { valid := false, errors := ["Token does not have write access to repository"] }
  else
    let errors :=
      if env.rateRemaining < 100 then
        ["Low API quota: " ++ toString env.rateRemaining ++ " remaining"]
      else []
    { valid := errors.isEmpty, errors := errors }

/-- The remote content store of one repository branch: path-indexed
association list, each file modelled by its byte count. -/
structure RemoteState where
  files : List (String × Nat)
  deriving Repr, DecidableEq

/-- `fileExists` (publisher.js:147-170): existence probe against a remote
path, returning the content found there (`none` models the 404 path). -/
def fileExists (remote : RemoteState) (path : String) : Option Nat :=
  remote.files.lookup path

/-- How many remote objects sit at a path (a well-formed remote has at
most one; writes below keep it that way). -/
def objectsAt (remote : RemoteState) (path : String) : Nat :=
  (remote.files.filter (fun f => f.1 == path)).length

/-- `uploadFile` (publisher.js:175-255) restricted to what the image
upload path exercises: a conditional content write that stores `content`
at `path` (replacing any previous object at that path, so a path never
holds two objects). The returned `url` models the download URL. -/
def uploadFile (remote : RemoteState) (path : String) (content : Nat) :
    (String × RemoteState) :=
  (path, { files := (path, content) :: remote.files.filter (fun f => !(f.1 == path)) })

/-- `String.prototype.padStart(6, '0')` on a decimal rendering. -/
def padStart6 (n : Nat) : String :=
  String.mk (List.replicate (6 - (toString n).length) '0') ++ toString n

/-- The deterministic remote path of a capture's image
(publisher.js:261). -/
def imagePath (sessionId : String) (sequenceNum : Nat) : String :=
  "sessions/" ++ sessionId ++ "/images/" ++ padStart6 sequenceNum ++ ".jpg"

/-- `capture.imageData && (… instanceof ArrayBuffer || byteLength !== undefined)`
(publisher.js:264): the new-format payload is present. -/
def hasImageData (c : Capture) : Bool := c.imageData.isSome

/-- `capture.imageBlob && capture.imageBlob instanceof Blob &&
capture.imageBlob.size > 0` (publisher.js:265): a non-empty legacy
payload is present. -/
def hasNonEmptyBlob (c : Capture) : Bool :=
  match c.imageBlob with
  | some n => 0 < n
  | none => false

/-- The byte count the upload serializes (publisher.js:277). -/
def captureImageSize (c : Capture) : Nat :=
  match c.imageData with
  | some n => n
  | none => c.imageBlob.getD 0

/-- Failures raised inside `uploadImage`. -/
inductive UploadError
  | noImageData (sequenceNum : Nat)
  | emptyBase64 (sequenceNum : Nat)
  deriving Repr, DecidableEq

/-- An upload's reported result (publisher.js:289, 324). -/
structure UploadResult where
  url : String
  skipped : Bool
  deriving Repr, DecidableEq

/-- `uploadImage` (publisher.js:260-325): reject a capture with no image
payload; probe the deterministic path and treat an existing object as
already delivered (`skipped = true`, no write); otherwise serialize the
payload (rejecting an empty serialization) and write it. -/
def uploadImage (remote : RemoteState) (c : Capture) (sessionId : String) :
    Except UploadError (UploadResult × RemoteState) :=
  let path := imagePath sessionId c.sequenceNum
  if !(hasImageData c || hasNonEmptyBlob c) then
    .error (.noImageData c.sequenceNum)
  else
    match fileExists remote path with
    | some _ => .ok ({ url := path, skipped := true }, remote)
    | none =>
        let size := captureImageSize c
        if size == 0 then
          .error (.emptyBase64 c.sequenceNum)
        else
          let (url, remote') := uploadFile remote path size
          .ok ({ url := url, skipped := false }, remote')

/-- A character-list prefix test (building block of the substring check
below). -/
def charsStartWith : List Char → List Char → Bool
  | [], _ => true
  | _ :: _, [] => false
  | a :: ps, b :: ss => a == b && charsStartWith ps ss

/-- A character-list substring test. -/
def charsContain (hay pat : List Char) : Bool :=
  match hay with
  | [] => pat.isEmpty
  | _ :: t => charsStartWith pat hay || charsContain t pat

/-- `String.prototype.includes`. -/
def strIncludes (s pat : String) : Bool := charsContain s.toList pat.toList

/-- The rate-limit classifier of `uploadWithRetry` (publisher.js:650-654):
substring checks on the error text. -/
def isRateLimited (msg : String) : Bool :=
  strIncludes msg "rate limit" || strIncludes msg "403" ||
    strIncludes msg "secondary rate limit"

/-- The outcome of one upload attempt (the resolution or rejection of
`uploadImage` as observed by the retry loop). -/
inductive UpOutcome
  | ok (r : UploadResult)
  | err (msg : String)
  deriving Repr, DecidableEq

/-- The observable trace of `uploadWithRetry`: its final result, how many
attempts ran, and the waits it inserted, as `(attempt, milliseconds)`
pairs. -/
structure RetryTrace where
  result : UpOutcome
  attemptsMade : Nat
  waits : List (Nat × Nat)
  deriving Repr, DecidableEq

/-- The body of `uploadWithRetry`'s `for` loop (publisher.js:616-667),
with the remaining iterations as fuel. A rate-limited failure waits a
fixed 60000 ms; any other failure with attempts remaining waits
`min(1000 * 2^attempt, 60000)` ms; the last error is remembered. -/
def retryGo (f : Nat → UpOutcome) (maxRetries : Nat) :
    Nat → Nat → String → List (Nat × Nat) → RetryTrace
  | 0, attempt, lastErr, waits =>
      { result := .err lastErr, attemptsMade := attempt - 1, waits := waits.reverse }
  | fuel + 1, attempt, _lastErr, waits =>
      match f attempt with
      | .ok r => { result := .ok r, attemptsMade := attempt, waits := waits.reverse }
      | .err msg =>
          if isRateLimited msg then
            retryGo f maxRetries fuel (attempt + 1) msg ((attempt, 60000) :: waits)
          else if attempt < maxRetries then
            retryGo f maxRetries fuel (attempt + 1) msg
              ((attempt, min (1000 * 2 ^ attempt) 60000) :: waits)
          else
            retryGo f maxRetries fuel (attempt + 1) msg waits

/-- `uploadWithRetry` (publisher.js:605-673) with its default of 5
attempts, as a function of the per-attempt outcome oracle `f`. -/
def uploadWithRetry (f : Nat → UpOutcome) (maxRetries : Nat := 5) : RetryTrace :=
  retryGo f maxRetries maxRetries 1 "Upload failed after all retries" []

/-- The coordinator's shared mutable job state (`publisherState`,
publisher.js:7-21; callbacks are modelled as emitted events, the config
lives in `GitHubEnv`). -/
structure PublisherState where
  isPublishing : Bool := false
  isPaused : Bool := false
  isProcessing : Bool := false
  currentSession : Option Session := none
  queue : List Capture := []
  completed : Nat := 0
  failed : Nat := 0
  total : Nat := 0
  startTime : Nat := 0
  deriving Repr, DecidableEq

/-- The rejection reasons of `startPublish` (publisher.js:434-461). -/
inductive PublishError
  | alreadyPublishing
  | validationFailed (errors : List String)
  | sessionNotFound
  | noCapturesToPublish
  deriving Repr, DecidableEq

/-- `startPublish` (publisher.js:434-517): guard against a running job,
validate remote access, load the session, load its unpublished captures
(failing when there are none at all), filter to those with a non-empty
`imageBlob`, initialize the job state and the persisted publish-state
record, and mark the session `publishing`. The drain itself
(`processQueue`) is launched separately. -/
def startPublish (ps : PublisherState) (st : StoreState) (env : GitHubEnv)
    (sessionId : String) (now : Nat) :
    Except PublishError (PublisherState × StoreState) :=
  if ps.isPublishing || ps.isProcessing then
    .error .alreadyPublishing
  else
    let validation := validateGitHubAccess env
    if !validation.valid then
      .error (.validationFailed validation.errors)
    else
      match getSession st sessionId with
      | none => .error .sessionNotFound
      | some session =>
          let captures := getUnpublishedCaptures st sessionId
          if captures.length == 0 then
            .error .noCapturesToPublish
          else
            let capturesWithBlobs := captures.filter hasNonEmptyBlob
            let sessionPub := { session with status := SessionStatus.publishing }
            let ps' : PublisherState :=
              { isPublishing := true
                isPaused := false
                isProcessing := false
                currentSession := some sessionPub
                queue := capturesWithBlobs
                completed := 0
                failed := 0
                total := capturesWithBlobs.length
                startTime := now }
            let st1 := savePublishState st
              { sessionId := sessionId
                publishStarted := now
                totalToUpload := capturesWithBlobs.length
                completed := 0
                failed := 0
                inProgress := true }
            .ok (ps', updateSession st1 sessionPub)

/-- Events surfaced through the coordinator's callbacks. -/
inductive Event
  | errorEvent (msg : String) (sequenceNum : Nat)
  | finishError
  | completeEvent (completed failed total : Nat)
  deriving Repr, DecidableEq

/-- The outcome of `uploadWithRetry` for one queue item as the drain loop
observes it: resolution, or the propagated last error. -/
inductive ItemOutcome
  | success (r : UploadResult)
  | failure (msg : String)
  deriving Repr, DecidableEq

/-- The `ItemOutcome` an `uploadWithRetry` trace reports to the drain. -/
def traceOutcome (t : RetryTrace) : ItemOutcome :=
  match t.result with
  | .ok r => .success r
  | .err msg => .failure msg

/-- Whether a capture id is present in the store. -/
def hasCaptureId (st : StoreState) (captureId : Nat) : Bool :=
  st.captures.any (fun c => c.id == captureId)

/-- The progress record persisted after each successful item
(publisher.js:567-574). -/
def progressRecord (ps : PublisherState) : PublishState :=
  { sessionId := ((ps.currentSession).map (fun s => s.id)).getD ""
    publishStarted := ps.startTime
    totalToUpload := ps.total
    completed := ps.completed
    failed := ps.failed
    inProgress := true }

/-- The drain result: the job state, the store, and the events emitted. -/
structure DrainResult where
  ps : PublisherState
  st : StoreState
  events : List Event
  deriving Repr, DecidableEq

/-- The `while` loop of `processQueue` (publisher.js:533-590), with the
queue snapshot as the structural argument (the loop keeps
`publisherState.queue` equal to the unprocessed tail). Per item: on a
successful upload, mark the capture published, advance the queue,
persist the progress record; the `markCapturePublished` rejection and
the upload failure are both caught by the per-item `catch`, which counts
the item failed, advances anyway, and emits the error event. -/
def drain (outcomes : Capture → ItemOutcome) :
    List Capture → PublisherState → StoreState → DrainResult
  | [], ps, st => ⟨ps, st, []⟩
  | c :: rest, ps, st =>
      if ps.isPublishing && !ps.isPaused then
        match outcomes c with
        | .success r =>
            match markCapturePublished st c.id r.url with
            | .ok st1 =>
                let ps1 := { ps with completed := ps.completed + 1, queue := rest }
                drain outcomes rest ps1 (savePublishState st1 (progressRecord ps1))
            | .error _ =>
                let ps1 := { ps with failed := ps.failed + 1, queue := rest }
                let d := drain outcomes rest ps1 st
                ⟨d.ps, d.st, Event.errorEvent "Capture not found" c.sequenceNum :: d.events⟩
        | .failure msg =>
            let ps1 := { ps with failed := ps.failed + 1, queue := rest }
            let d := drain outcomes rest ps1 st
            ⟨d.ps, d.st, Event.errorEvent msg c.sequenceNum :: d.events⟩
      else ⟨ps, st, []⟩

/-- `finishPublish` (publisher.js:678-768). The CSV, metadata and
coverage-index uploads are summarized by `finishingOk` (the coverage
merge swallows its own errors; `finishingOk = false` models a CSV or
metadata upload rejection reaching the catch block). On success: set the
final session status from the failed counter, persist it, record the
completed publish state, clear `isPublishing`, and emit the completion
event; on failure: clear `isPublishing` and emit the error event. -/
def finishPublish (ps : PublisherState) (st : StoreState) (now : Nat)
    (finishingOk : Bool) : PublisherState × StoreState × List Event :=
  match ps.currentSession, finishingOk with
  | some session, true =>
      let finalStatus :=
        if ps.failed > 0 then SessionStatus.partially_published else SessionStatus.published
      let session' := { session with status := finalStatus }
      let st1 := updateSession st session'
      let st2 := savePublishState st1
        { sessionId := session.id
          publishStarted := ps.startTime
          totalToUpload := ps.total
          completed := ps.completed
          failed := ps.failed
          inProgress := false
          completedAt := some now }
      ({ ps with isPublishing := false, currentSession := some session' }, st2,
        [Event.completeEvent ps.completed ps.failed ps.total])
  | _, _ => ({ ps with isPublishing := false }, st, [Event.finishError])

/-- `processQueue` (publisher.js:523-600): take the processing lock (or
return at once if held), drain the queue, run the finishing phase when
the queue is exhausted and the job was not cancelled, and release the
lock. -/
def processQueue (outcomes : Capture → ItemOutcome) (finishingOk : Bool) (now : Nat)
    (ps : PublisherState) (st : StoreState) : PublisherState × StoreState × List Event :=
  if ps.isProcessing then (ps, st, [])
  else
    let d := drain outcomes ps.queue { ps with isProcessing := true } st
    if d.ps.queue.isEmpty && d.ps.isPublishing then
      let (ps2, st2, evs2) := finishPublish d.ps d.st now finishingOk
      ({ ps2 with isProcessing := false }, st2, d.events ++ evs2)
    else
      ({ d.ps with isProcessing := false }, d.st, d.events)

/-- The polling loop of `cancelPublish` (publisher.js:803-807):
`while (publisherState.isProcessing && waitCount < 50) { await delay(100); waitCount++ }`.
`settles` is the poll count at which the in-flight drain iteration
settles (clears `isProcessing`); `remaining` is the fuel `50 - waitCount`
that realizes the `waitCount < 50` bound. Returns the poll count at
which the loop exited. -/
def cancelPollsFrom (settles : Nat) : Nat → Nat → Nat
  | 0, waitCount => waitCount
  | remaining + 1, waitCount =>
      if waitCount < settles then cancelPollsFrom settles remaining (waitCount + 1)
      else waitCount

/-- The number of 100 ms polls `cancelPublish` performs before
proceeding. -/
def cancelWaitPolls (settles : Nat) : Nat := cancelPollsFrom settles 50 0

/-- Whether the in-flight drain iteration had settled by the time the
cancel wait loop exited. -/
def settledOnCancelReturn (settles : Nat) : Bool := settles ≤ cancelWaitPolls settles

/-- `cancelPublish` (publisher.js:794-820): clear the job flags and the
queue, poll (bounded) for the drain lock, set the session's status to
`stopped`, and reset the current session. The third component is the
number of polls performed. -/
def cancelPublish (ps : PublisherState) (st : StoreState) (settles : Nat) :
    PublisherState × StoreState × Nat :=
  let sessionId := (ps.currentSession).map (fun s => s.id)
  let ps1 := { ps with isPublishing := false, isPaused := false, queue := [] }
  let polls := cancelWaitPolls settles
  let st1 :=
    match sessionId with
    | some sid =>
        match getSession st sid with
        | some sess => updateSession st { sess with status := SessionStatus.stopped }
        | none => st
    | none => st
  ({ ps1 with currentSession := none }, st1, polls)

/-! ### Shared lemmas -/

theorem capturesFor_append (cs ds : List Capture) (sid : String) :
    capturesFor (cs ++ ds) sid = capturesFor cs sid ++ capturesFor ds sid := by
  simp [capturesFor, List.filter_append]

theorem mkCapture_sessionId (n : Nat) (ci : CaptureInput) :
    (mkCapture n ci).sessionId = ci.sessionId := rfl

theorem applyCaptureStats_id (s : Session) (ci : CaptureInput) (now : Nat) :
    (applyCaptureStats s ci now).id = s.id := rfl

theorem saveCapture_eq_error (st : StoreState) (ci : CaptureInput) (now : Nat)
    (hdup : st.captures.any
      (fun c => c.sessionId == ci.sessionId && c.sequenceNum == ci.sequenceNum) = true) :
    saveCapture st ci now = .error .constraintViolation := by
  simp [saveCapture, hdup]

theorem saveCapture_eq_ok (st : StoreState) (ci : CaptureInput) (now : Nat)
    (hdup : st.captures.any
      (fun c => c.sessionId == ci.sessionId && c.sequenceNum == ci.sequenceNum) = false) :
    saveCapture st ci now = .ok
      ({ st with
          captures := st.captures ++ [mkCapture st.nextCaptureId ci]
          sessions := st.sessions.map (fun s =>
            if s.id == ci.sessionId then applyCaptureStats s ci now else s)
          nextCaptureId := st.nextCaptureId + 1 },
        st.nextCaptureId) := by
  simp [saveCapture, hdup]

theorem aggregates_insert_match (st : StoreState) (ci : CaptureInput) (now : Nat)
    (s : Session) (hagg : aggregatesConsistent st s) (hid : s.id = ci.sessionId) :
    (applyCaptureStats s ci now).captureCount =
      (capturesFor (st.captures ++ [mkCapture st.nextCaptureId ci])
        (applyCaptureStats s ci now).id).length ∧
    (applyCaptureStats s ci now).totalBytes =
      ((capturesFor (st.captures ++ [mkCapture st.nextCaptureId ci])
        (applyCaptureStats s ci now).id).map (fun c => c.imageSizeBytes)).sum := by
  have hcap : ((mkCapture st.nextCaptureId ci).sessionId == s.id) = true := by
    simp [mkCapture_sessionId, hid]
  rw [applyCaptureStats_id, capturesFor_append]
  constructor
  · simp [applyCaptureStats, capturesFor, hcap, hagg.1]
  · simp [applyCaptureStats, capturesFor, hcap, hagg.2, mkCapture, hid]

theorem aggregates_insert_other (st : StoreState) (ci : CaptureInput)
    (s : Session) (hagg : aggregatesConsistent st s) (hid : ¬s.id = ci.sessionId) :
    s.captureCount =
      (capturesFor (st.captures ++ [mkCapture st.nextCaptureId ci]) s.id).length ∧
    s.totalBytes =
      ((capturesFor (st.captures ++ [mkCapture st.nextCaptureId ci]) s.id).map
        (fun c => c.imageSizeBytes)).sum := by
  have hcap : ((mkCapture st.nextCaptureId ci).sessionId == s.id) = false := by
    rw [mkCapture_sessionId]
    simpa using fun hh => hid hh.symm
  rw [capturesFor_append]
  constructor
  · simp [capturesFor, hcap, hagg.1]
  · simp [capturesFor, hcap, hagg.2]

theorem saveCaptureStep_consistent (st : StoreState) (ci : CaptureInput) (now : Nat)
    (h : storeConsistent st) : storeConsistent (saveCaptureStep st ci now) := by
  by_cases hdup : st.captures.any
      (fun c => c.sessionId == ci.sessionId && c.sequenceNum == ci.sequenceNum) = true
  · have hstep : saveCaptureStep st ci now = st := by
      simp [saveCaptureStep, saveCapture_eq_error st ci now hdup]
    rw [hstep]; exact h
  · rw [Bool.not_eq_true] at hdup
    have hstep : saveCaptureStep st ci now =
        { st with
            captures := st.captures ++ [mkCapture st.nextCaptureId ci]
            sessions := st.sessions.map (fun s =>
              if s.id == ci.sessionId then applyCaptureStats s ci now else s)
            nextCaptureId := st.nextCaptureId + 1 } := by
      simp [saveCaptureStep, saveCapture_eq_ok st ci now hdup]
    rw [hstep]
    intro s' hs'
    simp only [List.mem_map] at hs'
    obtain ⟨s, hs, rfl⟩ := hs'
    have hagg := h s hs
    by_cases hid : s.id = ci.sessionId
    · have hbeq : (s.id == ci.sessionId) = true := beq_iff_eq.mpr hid
      simpa [aggregatesConsistent, hbeq] using
        aggregates_insert_match st ci now s hagg hid
    · have hbeq : (s.id == ci.sessionId) = false := by simpa using hid
      simpa [aggregatesConsistent, hbeq] using
        aggregates_insert_other st ci s hagg hid

/-! ### C1 -/

/-- C1: after any sequence of `saveCapture` operations, every session
record's `captureCount` equals the number of persisted captures with
that session's id and its `totalBytes` equals the sum of their
`imageSizeBytes`. Each `saveCapture` is a single transaction
(`saveCaptureStep` is one state transition, and an aborted transaction
leaves the state unchanged), so no observable state has the capture
inserted without the aggregates updated or vice versa. -/
theorem C1_saveCapture_aggregates_invariant (st : StoreState)
    (ops : List (CaptureInput × Nat)) (h : storeConsistent st) :
    storeConsistent (applySaves st ops) := by
  induction ops generalizing st with
  | nil => exact h
  | cons op rest ih =>
      exact ih _ (saveCaptureStep_consistent st op.1 op.2 h)

/-- Concrete store for the C1 witness: one freshly created session. -/
def c1Session : Session :=
  { id := "session_1", name := "Session A", createdAt := "2026-01-01"
    status := SessionStatus.recording, captureCount := 0, totalBytes := 0
    avgImageSize := 0, duration := 0, startTime := 0, lastCaptureTime := none }

def c1Store : StoreState :=
  { sessions := [c1Session], captures := [], publishStates := [], nextCaptureId := 1 }

def c1Ops : List (CaptureInput × Nat) :=
  [({ sessionId := "session_1", sequenceNum := 1, timestamp := 100

      imageBlob := some 10, imageSizeBytes := 10 }, 2000),
   ({ sessionId := "session_1", sequenceNum := 2, timestamp := 200
      imageBlob := some 30, imageSizeBytes := 30 }, 4000)]

/-- Witness for C1: a concrete consistent store stays consistent across
two concrete `saveCapture` calls. -/
theorem C1_saveCapture_aggregates_invariant_witness :
    storeConsistent c1Store ∧ storeConsistent (applySaves c1Store c1Ops) :=
  ⟨by decide, C1_saveCapture_aggregates_invariant c1Store c1Ops (by decide)⟩

/-! ### C9 -/

/-- C9: `deleteSession` removes the session record, every capture with
that session id, and the publish-state record keyed by it, in one
transaction (one state transition), and keeps exactly the records that
do not reference the id — no orphan remains. -/
theorem C9_deleteSession_cascades (st : StoreState) (sessionId : String) :
    (∀ s ∈ (deleteSession st sessionId).sessions, s.id ≠ sessionId) ∧
    (∀ c ∈ (deleteSession st sessionId).captures, c.sessionId ≠ sessionId) ∧
    (∀ p ∈ (deleteSession st sessionId).publishStates, p.sessionId ≠ sessionId) ∧
    (∀ s ∈ st.sessions, s.id ≠ sessionId → s ∈ (deleteSession st sessionId).sessions) ∧
    (∀ c ∈ st.captures, c.sessionId ≠ sessionId → c ∈ (deleteSession st sessionId).captures) ∧
    (∀ p ∈ st.publishStates, p.sessionId ≠ sessionId →
      p ∈ (deleteSession st sessionId).publishStates) := by
  refine ⟨fun s hs => ?_, fun c hc => ?_, fun p hp => ?_,
    fun s hs hne => ?_, fun c hc hne => ?_, fun p hp hne => ?_⟩
  · simpa using (List.mem_filter.mp hs).2
  · simpa using (List.mem_filter.mp hc).2
  · simpa using (List.mem_filter.mp hp).2
  · exact List.mem_filter.mpr ⟨hs, by simpa using hne⟩
  · exact List.mem_filter.mpr ⟨hc, by simpa using hne⟩
  · exact List.mem_filter.mpr ⟨hp, by simpa using hne⟩

/-! ### C10 -/

theorem map_eq_self_of_mem {α : Type} (l : List α) (f : α → α)
    (h : ∀ a ∈ l, f a = a) : l.map f = l := by
  induction l with
  | nil => rfl
  | cons a t ih =>
      simp only [List.map_cons, h a (by simp), List.cons.injEq, true_and]
      exact ih (fun b hb => h b (by simp [hb]))

/-- C10: saving a capture whose `sessionId` matches no persisted session
does not fail — the orphan capture is inserted, the call resolves with
the store-assigned id, and no session record is touched. -/
theorem C10_saveCapture_orphan (st : StoreState) (ci : CaptureInput) (now : Nat)
    (hnosess : ∀ s ∈ st.sessions, s.id ≠ ci.sessionId)
    (hdup : st.captures.any
      (fun c => c.sessionId == ci.sessionId && c.sequenceNum == ci.sequenceNum) = false) :
    ∃ st', saveCapture st ci now = .ok (st', st.nextCaptureId) ∧
      st'.sessions = st.sessions ∧
      st'.captures = st.captures ++ [mkCapture st.nextCaptureId ci] := by
  refine ⟨_, saveCapture_eq_ok st ci now hdup, ?_, rfl⟩
  exact map_eq_self_of_mem _ _ (fun s hs => by
    simp [beq_eq_false_iff_ne.mpr (hnosess s hs)])

def c10Store : StoreState :=
  { sessions := [], captures := [], publishStates := [], nextCaptureId := 7 }

def c10Input : CaptureInput :=
  { sessionId := "ghost", sequenceNum := 1, timestamp := 3
    imageBlob := some 5, imageSizeBytes := 5 }

/-- Witness for C10: an orphan capture saved into a store with no
sessions at all. -/
theorem C10_saveCapture_orphan_witness :
    (∀ s ∈ c10Store.sessions, s.id ≠ c10Input.sessionId) ∧
    (∃ st', saveCapture c10Store c10Input 9 = .ok (st', c10Store.nextCaptureId) ∧
      st'.sessions = c10Store.sessions ∧
      st'.captures = c10Store.captures ++ [mkCapture c10Store.nextCaptureId c10Input]) :=
  ⟨by decide, C10_saveCapture_orphan c10Store c10Input 9 (by decide) (by decide)⟩

/-! ### Sorting and recovery lemmas -/

theorem mem_insertBySeq (c x : Capture) (l : List Capture) :
    x ∈ insertBySeq c l ↔ x = c ∨ x ∈ l := by
  induction l with
  | nil => simp [insertBySeq]
  | cons d ds ih =>
      by_cases hcd : c.sequenceNum ≤ d.sequenceNum
      · simp [insertBySeq, hcd]
      · simp only [insertBySeq, if_neg hcd, List.mem_cons, ih]
        tauto

theorem pairwise_insertBySeq (c : Capture) (l : List Capture)
    (h : l.Pairwise (fun a b => a.sequenceNum ≤ b.sequenceNum)) :
    (insertBySeq c l).Pairwise (fun a b => a.sequenceNum ≤ b.sequenceNum) := by
  induction l with
  | nil => simp [insertBySeq]
  | cons d ds ih =>
      rw [List.pairwise_cons] at h
      by_cases hcd : c.sequenceNum ≤ d.sequenceNum
      · simp only [insertBySeq, if_pos hcd]
        rw [List.pairwise_cons]
        refine ⟨?_, List.pairwise_cons.mpr h⟩
        intro x hx
        rcases List.mem_cons.mp hx with rfl | hx
        · exact hcd
        · exact le_trans hcd (h.1 x hx)
      · simp only [insertBySeq, if_neg hcd]
        rw [List.pairwise_cons]
        refine ⟨?_, ih h.2⟩
        intro x hx
        rcases (mem_insertBySeq c x ds).mp hx with rfl | hx
        · exact le_of_not_le hcd
        · exact h.1 x hx

theorem pairwise_sortBySeq (l : List Capture) :
    (sortBySeq l).Pairwise (fun a b => a.sequenceNum ≤ b.sequenceNum) := by
  induction l with
  | nil => simp [sortBySeq]
  | cons c cs ih => exact pairwise_insertBySeq c _ ih

theorem updateSession_captures (st : StoreState) (s : Session) :
    (updateSession st s).captures = st.captures := rfl

theorem recoverySessionUpdate_id (st : StoreState) (s : Session) :
    (recoverySessionUpdate st s).id = s.id := by
  unfold recoverySessionUpdate
  dsimp only
  split <;> rfl

theorem recoverySessionUpdate_congr (st st' : StoreState) (s : Session)
    (hc : st'.captures = st.captures) :
    recoverySessionUpdate st' s = recoverySessionUpdate st s := by
  simp only [recoverySessionUpdate, getSessionCaptures, hc]

theorem mem_updateSession_self (st : StoreState) (s : Session) :
    s ∈ (updateSession st s).sessions := by
  unfold updateSession
  by_cases h : st.sessions.any (fun t => t.id == s.id) = true
  · rcases List.any_eq_true.mp h with ⟨t, ht, htid⟩
    simp only [h, if_true]
    exact List.mem_map.mpr ⟨t, ht, by simp [htid]⟩
  · rw [Bool.not_eq_true] at h
    simp [h]

theorem mem_updateSession_of_ne (st : StoreState) (s u : Session) (hu : u ∈ st.sessions)
    (hne : ¬u.id = s.id) : u ∈ (updateSession st s).sessions := by
  unfold updateSession
  by_cases h : st.sessions.any (fun t => t.id == s.id) = true
  · simp only [h, if_true]
    exact List.mem_map.mpr ⟨u, hu, by simp [beq_eq_false_iff_ne.mpr hne]⟩
  · rw [Bool.not_eq_true] at h
    simp [h, List.mem_append, hu]

/-- The fold inside `checkForRecovery`, abstracted over the accumulator:
the collected list is the per-session update applied pointwise (the
captures store never changes during the scan), and the store component is
a fold of `updateSession` over the updated records. -/
theorem checkForRecovery_foldl (l : List Session) (st0 : StoreState) :
    ∀ (st : StoreState) (acc : List Session), st.captures = st0.captures →
      (l.foldl (fun acc s =>
          let s' := recoverySessionUpdate acc.1 s
          (updateSession acc.1 s', acc.2 ++ [s'])) ((st, acc) : StoreState × List Session)).2
        = acc ++ l.map (recoverySessionUpdate st0) ∧
      (l.foldl (fun acc s =>
          let s' := recoverySessionUpdate acc.1 s
          (updateSession acc.1 s', acc.2 ++ [s'])) ((st, acc) : StoreState × List Session)).1
        = l.foldl (fun st2 s => updateSession st2 (recoverySessionUpdate st0 s)) st := by
  induction l with
  | nil => intro st acc _; simp
  | cons s rest ih =>
      intro st acc hc
      have hru : recoverySessionUpdate st s = recoverySessionUpdate st0 s :=
        recoverySessionUpdate_congr st0 st s hc
      have hstep : (updateSession st (recoverySessionUpdate st s)).captures = st0.captures := by
        rw [updateSession_captures]; exact hc
      obtain ⟨h1, h2⟩ := ih (updateSession st (recoverySessionUpdate st s))
        (acc ++ [recoverySessionUpdate st s]) hstep
      constructor
      · simp only [List.foldl_cons, List.map_cons]
        rw [h1, hru]
        simp
      · simp only [List.foldl_cons]
        rw [h2, hru]

theorem mem_foldl_updateSession_preserve (g : Session → Session) (l : List Session) :
    ∀ (st : StoreState) (u : Session), u ∈ st.sessions →
      (∀ v ∈ l, ¬u.id = (g v).id) →
      u ∈ (l.foldl (fun st2 t => updateSession st2 (g t)) st).sessions := by
  induction l with
  | nil => intro st u hu _; exact hu
  | cons a rest ih =>
      intro st u hu hne
      exact ih _ u (mem_updateSession_of_ne _ _ u hu (hne a (by simp)))
        (fun v hv => hne v (by simp [hv]))

theorem mem_foldl_updateSession (g : Session → Session) (hg : ∀ s, (g s).id = s.id)
    (l : List Session) :
    ∀ (st : StoreState) (s : Session), s ∈ l → (l.map (fun t => t.id)).Nodup →
      g s ∈ (l.foldl (fun st2 t => updateSession st2 (g t)) st).sessions := by
  induction l with
  | nil => simp
  | cons a rest ih =>
      intro st s hs hnodup
      simp only [List.map_cons, List.nodup_cons] at hnodup
      rcases List.mem_cons.mp hs with rfl | hs
      · simp only [List.foldl_cons]
        refine mem_foldl_updateSession_preserve g rest _ (g s)
          (mem_updateSession_self st (g s)) ?_
        intro v hv
        rw [hg s, hg v]
        intro he
        exact hnodup.1 (he ▸ List.mem_map.mpr ⟨v, hv, rfl⟩)
      · exact ih _ s hs hnodup.2

theorem getSessionsByStatus_pair (st : StoreState) (a b : SessionStatus) :
    getSessionsByStatus st [a, b] =
      st.sessions.filter (fun s => s.status == a) ++
        st.sessions.filter (fun s => s.status == b) := by
  simp [getSessionsByStatus]

theorem active_ids_nodup (st : StoreState)
    (h : (st.sessions.map (fun s => s.id)).Nodup) :
    ((getSessionsByStatus st
        [SessionStatus.recording, SessionStatus.publishing]).map
      (fun s => s.id)).Nodup := by
  rw [getSessionsByStatus_pair, List.map_append]
  refine List.Nodup.append ?_ ?_ ?_
  · exact ((List.filter_sublist st.sessions).map (fun s => s.id)).nodup h
  · exact ((List.filter_sublist st.sessions).map (fun s => s.id)).nodup h
  · intro x hx1 hx2
    obtain ⟨s1, hs1, rfl⟩ := List.mem_map.mp hx1
    obtain ⟨s2, hs2, hid⟩ := List.mem_map.mp hx2
    obtain ⟨hs1m, hst1⟩ := List.mem_filter.mp hs1
    obtain ⟨hs2m, hst2⟩ := List.mem_filter.mp hs2
    have heq : s1 = s2 := List.inj_on_of_nodup_map h hs1m hs2m hid.symm
    rw [heq] at hst1
    rw [beq_iff_eq] at hst1 hst2
    rw [hst2] at hst1
    exact absurd hst1 (by decide)

/-! ### C6 -/

/-- The claim's worked example: captures numbered 1, 2, 4, 5. -/
def demoCapture (id seq : Nat) : Capture :=
  { id := id, sessionId := "demo", sequenceNum := seq, timestamp := seq * 10
    imageSizeBytes := 1 }

def demoGapCaptures : List Capture :=
  [demoCapture 1 1, demoCapture 2 2, demoCapture 3 4, demoCapture 4 5]

/-- C6 (amended): the recovery scan processes exactly the sessions whose
status is `recording` or `publishing`; for each it loads the captures
ordered by ascending `sequenceNum`, computes the gaps by the
`actual ≠ previous + 1` rule (`[1,2,4,5]` yields exactly one gap
`{after := 2, before := 4, missing := 1}`), attaches
`recoveryInfo{potentialMissedFrames = sum of gap sizes, lastCaptureTime,
gaps}` — but only when at least one gap was found, otherwise the field is
left as it was — sets the status to `paused`, persists the record, and
returns it in the result list. -/
theorem C6_checkForRecovery (st : StoreState)
    (hnodup : (st.sessions.map (fun s => s.id)).Nodup) :
    (checkForRecovery st).2 =
      (getSessionsByStatus st [SessionStatus.recording, SessionStatus.publishing]).map
        (recoverySessionUpdate st) ∧
    (∀ s ∈ getSessionsByStatus st [SessionStatus.recording, SessionStatus.publishing],
      (recoverySessionUpdate st s).status = SessionStatus.paused ∧
      (findSequenceGaps (getSessionCaptures st s.id) = [] →
        (recoverySessionUpdate st s).recoveryInfo = s.recoveryInfo) ∧
      (findSequenceGaps (getSessionCaptures st s.id) ≠ [] →
        (recoverySessionUpdate st s).recoveryInfo = some
          { potentialMissedFrames :=
              ((findSequenceGaps (getSessionCaptures st s.id)).map (fun g => g.missing)).sum
            lastCaptureTime :=
              ((getSessionCaptures st s.id).getLast?).map (fun c => c.timestamp)
            gaps := findSequenceGaps (getSessionCaptures st s.id) }) ∧
      recoverySessionUpdate st s ∈ (checkForRecovery st).1.sessions) ∧
    (∀ sessionId, (getSessionCaptures st sessionId).Pairwise
      (fun a b => a.sequenceNum ≤ b.sequenceNum)) ∧
    findSequenceGaps demoGapCaptures = [{ after := 2, before := 4, missing := 1 }] := by
  have hfold := checkForRecovery_foldl
    (getSessionsByStatus st [SessionStatus.recording, SessionStatus.publishing]) st st [] rfl
  refine ⟨?_, ?_, fun sessionId => pairwise_sortBySeq _, by decide⟩
  · unfold checkForRecovery
    simpa using hfold.1
  · intro s hs
    refine ⟨?_, ?_, ?_, ?_⟩
    · rfl
    · intro hg
      unfold recoverySessionUpdate
      simp [hg]
    · intro hg
      unfold recoverySessionUpdate
      simp [List.length_pos.mpr hg]
    · unfold checkForRecovery
      rw [hfold.2]
      exact mem_foldl_updateSession (recoverySessionUpdate st) (recoverySessionUpdate_id st)
        _ st s hs (active_ids_nodup st hnodup)

def c6Capture (id seq : Nat) : Capture :=
  { id := id, sessionId := "r1", sequenceNum := seq, timestamp := seq
    imageBlob := some 1, imageSizeBytes := 1 }

def c6Session : Session :=
  { id := "r1", name := "R", createdAt := "t", status := SessionStatus.recording
    captureCount := 2, totalBytes := 2, avgImageSize := 1, duration := 0
    startTime := 0, lastCaptureTime := some 2 }

def c6Store : StoreState :=
  { sessions := [c6Session], captures := [c6Capture 1 1, c6Capture 2 2]
    publishStates := [], nextCaptureId := 3 }

/-- Counterexample to C6 as stated: a `recording` session whose captures
are the gap-free sequence `[1, 2]`. The claim says the scan attaches
`recoveryInfo{potentialMissedFrames = 0, lastCaptureTime, gaps = []}` to
every recovered session; the code attaches `recoveryInfo` only when at
least one gap exists, so the recovered record comes back with
`recoveryInfo = none`. -/
theorem C6_counterexample :
    (checkForRecovery c6Store).2.map (fun s => s.recoveryInfo) = [none] ∧
    (checkForRecovery c6Store).2.map (fun s => s.status) = [SessionStatus.paused] := by
  decide

def c6wCapture (id seq : Nat) : Capture :=
  { id := id, sessionId := "w6", sequenceNum := seq, timestamp := seq
    imageSizeBytes := 1 }

def c6wSession : Session :=
  { id := "w6", name := "W", createdAt := "t", status := SessionStatus.publishing
    captureCount := 4, totalBytes := 4, avgImageSize := 1, duration := 0
    startTime := 0, lastCaptureTime := some 5 }

def c6wStore : StoreState :=
  { sessions := [c6wSession]
    captures := [c6wCapture 1 1, c6wCapture 2 2, c6wCapture 3 4, c6wCapture 4 5]
    publishStates := [], nextCaptureId := 5 }

/-- Witness for C6 at a concrete store holding one mid-publish session
with the gap sequence `[1, 2, 4, 5]`. -/
theorem C6_checkForRecovery_witness :
    (c6wStore.sessions.map (fun s => s.id)).Nodup ∧
    ((checkForRecovery c6wStore).2 =
      (getSessionsByStatus c6wStore
        [SessionStatus.recording, SessionStatus.publishing]).map
          (recoverySessionUpdate c6wStore) ∧
    (∀ s ∈ getSessionsByStatus c6wStore
        [SessionStatus.recording, SessionStatus.publishing],
      (recoverySessionUpdate c6wStore s).status = SessionStatus.paused ∧
      (findSequenceGaps (getSessionCaptures c6wStore s.id) = [] →
        (recoverySessionUpdate c6wStore s).recoveryInfo = s.recoveryInfo) ∧
      (findSequenceGaps (getSessionCaptures c6wStore s.id) ≠ [] →
        (recoverySessionUpdate c6wStore s).recoveryInfo = some
          { potentialMissedFrames :=
              ((findSequenceGaps (getSessionCaptures c6wStore s.id)).map
                (fun g => g.missing)).sum
            lastCaptureTime :=
              ((getSessionCaptures c6wStore s.id).getLast?).map (fun c => c.timestamp)
            gaps := findSequenceGaps (getSessionCaptures c6wStore s.id) }) ∧
      recoverySessionUpdate c6wStore s ∈ (checkForRecovery c6wStore).1.sessions) ∧
    (∀ sessionId, (getSessionCaptures c6wStore sessionId).Pairwise
      (fun a b => a.sequenceNum ≤ b.sequenceNum)) ∧
    findSequenceGaps demoGapCaptures = [{ after := 2, before := 4, missing := 1 }]) :=
  ⟨by decide, C6_checkForRecovery c6wStore (by decide)⟩

/-! ### C8 -/

theorem validateGitHubAccess_invalid (env : GitHubEnv)
    (h : env.userStatus = 401 ∨ env.pushPermission = false ∨ env.rateRemaining < 100) :
    (validateGitHubAccess env).valid = false ∧ (validateGitHubAccess env).errors ≠ [] := by
  unfold validateGitHubAccess
  split_ifs with h1 h2 h3 h4 h5 h6 <;> simp_all

/-- C8: whenever validation finds a failure reason — an invalid token
(HTTP 401 on the identity probe), a missing `push` permission on the
target repository, or a remaining rate-limit quota below 100 —
`startPublish` rejects with the validation failure carrying every reason
`validateGitHubAccess` found (a non-empty list), before the queue is
built, before any publish state is persisted and before the drain is
launched: the `.error` return carries no successor state, and the
validation itself performs only read probes, so zero remote writes are
issued. -/
theorem C8_startPublish_rejects_on_validation (ps : PublisherState) (st : StoreState)
    (env : GitHubEnv) (sessionId : String) (now : Nat)
    (hps : ps.isPublishing = false) (hpr : ps.isProcessing = false)
    (h : env.userStatus = 401 ∨ env.pushPermission = false ∨ env.rateRemaining < 100) :
    startPublish ps st env sessionId now =
      .error (.validationFailed (validateGitHubAccess env).errors) ∧
    (validateGitHubAccess env).errors ≠ [] := by
  obtain ⟨hv, he⟩ := validateGitHubAccess_invalid env h
  refine ⟨?_, he⟩
  unfold startPublish
  simp [hps, hpr, hv]

def c8Env : GitHubEnv :=
  { userStatus := 200, repoStatus := 200, pushPermission := true, rateRemaining := 50 }

def c8Ps : PublisherState := {}

def c8Store : StoreState :=
  { sessions := [], captures := [], publishStates := [], nextCaptureId := 1 }

/-- Witness for C8: idle publisher, remaining quota 50 (< 100) — the
start call rejects listing the quota reason. -/
theorem C8_startPublish_rejects_on_validation_witness :
    (c8Ps.isPublishing = false ∧ c8Ps.isProcessing = false ∧ c8Env.rateRemaining < 100 ∧
      (validateGitHubAccess c8Env).errors = ["Low API quota: 50 remaining"]) ∧
    (startPublish c8Ps c8Store c8Env "s" 0 =
        .error (.validationFailed (validateGitHubAccess c8Env).errors) ∧
      (validateGitHubAccess c8Env).errors ≠ []) :=
  ⟨⟨rfl, rfl, by decide, by decide⟩,
    C8_startPublish_rejects_on_validation c8Ps c8Store c8Env "s" 0 rfl rfl
      (Or.inr (Or.inr (by decide)))⟩

/-! ### C3 -/

/-- C3 (amended): with an idle publisher, valid remote access and an
existing session, `startPublish` fails with the no-work error exactly
when the session has no unpublished captures at all; otherwise it
succeeds and the work queue is exactly the unpublished captures whose
legacy `imageBlob` payload is non-empty, in FIFO order of ascending
`sequenceNum` (an unpublished capture carrying only the new-format
`imageData` payload is omitted, and a non-empty unpublished set whose
members all lack an `imageBlob` yields an empty queue rather than the
no-work error). -/
theorem C3_startPublish_queue (ps : PublisherState) (st : StoreState) (env : GitHubEnv)
    (sessionId : String) (now : Nat) (session : Session)
    (hps : ps.isPublishing = false) (hpr : ps.isProcessing = false)
    (hv : (validateGitHubAccess env).valid = true)
    (hsess : getSession st sessionId = some session) :
    (getUnpublishedCaptures st sessionId = [] →
      startPublish ps st env sessionId now = .error .noCapturesToPublish) ∧
    (getUnpublishedCaptures st sessionId ≠ [] →
      ∃ ps' st', startPublish ps st env sessionId now = .ok (ps', st') ∧
        ps'.queue = (getUnpublishedCaptures st sessionId).filter hasNonEmptyBlob ∧
        ps'.total = ps'.queue.length ∧
        ps'.queue.Pairwise (fun a b => a.sequenceNum ≤ b.sequenceNum)) := by
  constructor
  · intro hempty
    unfold startPublish
    simp [hps, hpr, hv, hsess, hempty]
  · intro hne
    have hlen : ((getUnpublishedCaptures st sessionId).length == 0) = false :=
      beq_eq_false_iff_ne.mpr (fun hh => hne (List.length_eq_zero.mp hh))
    refine ⟨{ isPublishing := true, isPaused := false, isProcessing := false
              currentSession := some { session with status := SessionStatus.publishing }
              queue := (getUnpublishedCaptures st sessionId).filter hasNonEmptyBlob
              completed := 0, failed := 0
              total := ((getUnpublishedCaptures st sessionId).filter hasNonEmptyBlob).length
              startTime := now },
            updateSession (savePublishState st
              { sessionId := sessionId, publishStarted := now
                totalToUpload :=
                  ((getUnpublishedCaptures st sessionId).filter hasNonEmptyBlob).length
                completed := 0, failed := 0, inProgress := true })
              { session with status := SessionStatus.publishing },
            ?_, rfl, rfl,
            List.Pairwise.sublist (List.filter_sublist _) (pairwise_sortBySeq _)⟩
    unfold startPublish
    simp [hps, hpr, hv, hsess, hlen]

def c3Capture : Capture :=
  { id := 1, sessionId := "s3", sequenceNum := 1, timestamp := 0
    imageData := some 5, imageSizeBytes := 5 }

def c3Session : Session :=
  { id := "s3", name := "S3", createdAt := "t", status := SessionStatus.paused
    captureCount := 1, totalBytes := 5, avgImageSize := 5, duration := 0
    startTime := 0, lastCaptureTime := some 0 }

def c3Store : StoreState :=
  { sessions := [c3Session], captures := [c3Capture], publishStates := []
    nextCaptureId := 2 }

def c3Env : GitHubEnv :=
  { userStatus := 200, repoStatus := 200, pushPermission := true, rateRemaining := 5000 }

/-- The queue of a successful `startPublish`, if any. -/
def queueOf : Except PublishError (PublisherState × StoreState) → Option (List Capture)
  | .ok (ps, _) => some ps.queue
  | .error _ => none

/-- Counterexample to C3 as stated: a session with one unpublished
capture whose payload is the new-format `imageData` (which the uploader
itself accepts as a valid non-empty payload) and no legacy `imageBlob`.
The claim requires the queue to be exactly the unpublished captures with
a non-empty image payload and a no-work failure when that set is empty;
instead `startPublish` filters on `imageBlob` only, omits this capture,
raises no error, and starts the job with an empty queue. -/
theorem C3_counterexample :
    getUnpublishedCaptures c3Store "s3" = [c3Capture] ∧
    hasImageData c3Capture = true ∧
    c3Capture.published = false ∧
    queueOf (startPublish {} c3Store c3Env "s3" 0) = some [] := by
  decide

def c3wCaptures : List Capture :=
  [{ id := 1, sessionId := "w3", sequenceNum := 3, timestamp := 30
     imageBlob := some 4, imageSizeBytes := 4 },
   { id := 2, sessionId := "w3", sequenceNum := 1, timestamp := 10
     imageBlob := some 2, imageSizeBytes := 2 },
   { id := 3, sessionId := "w3", sequenceNum := 2, timestamp := 20
     imageBlob := some 9, imageSizeBytes := 9, published := true },
   { id := 4, sessionId := "w3", sequenceNum := 4, timestamp := 40
     imageBlob := some 0, imageSizeBytes := 0 }]

def c3wSession : Session :=
  { id := "w3", name := "W3", createdAt := "t", status := SessionStatus.stopped
    captureCount := 4, totalBytes := 15, avgImageSize := 0, duration := 0
    startTime := 0, lastCaptureTime := some 40 }

def c3wStore : StoreState :=
  { sessions := [c3wSession], captures := c3wCaptures, publishStates := []
    nextCaptureId := 5 }

/-- Witness for C3 at a concrete store: unpublished captures with
sequence numbers 3, 1, 4 (4 has an empty blob), one published capture. -/
theorem C3_startPublish_queue_witness :
    (({} : PublisherState).isPublishing = false ∧
      ({} : PublisherState).isProcessing = false ∧
      (validateGitHubAccess c3Env).valid = true ∧
      getSession c3wStore "w3" = some c3wSession ∧
      getUnpublishedCaptures c3wStore "w3" ≠ []) ∧
    ((getUnpublishedCaptures c3wStore "w3" = [] →
      startPublish {} c3wStore c3Env "w3" 7 = .error .noCapturesToPublish) ∧
    (getUnpublishedCaptures c3wStore "w3" ≠ [] →
      ∃ ps' st', startPublish {} c3wStore c3Env "w3" 7 = .ok (ps', st') ∧
        ps'.queue = (getUnpublishedCaptures c3wStore "w3").filter hasNonEmptyBlob ∧
        ps'.total = ps'.queue.length ∧
        ps'.queue.Pairwise (fun a b => a.sequenceNum ≤ b.sequenceNum))) :=
  ⟨⟨rfl, rfl, by decide, by decide, by decide⟩,
    C3_startPublish_queue {} c3wStore c3Env "w3" 7 c3wSession rfl rfl
      (by decide) (by decide)⟩

/-! ### C2 -/

theorem uploadImage_skips_existing (remote : RemoteState) (c : Capture) (sessionId : String)
    (hpay : (hasImageData c || hasNonEmptyBlob c) = true) (content : Nat)
    (hex : fileExists remote (imagePath sessionId c.sequenceNum) = some content) :
    uploadImage remote c sessionId =
      .ok ({ url := imagePath sessionId c.sequenceNum, skipped := true }, remote) := by
  unfold uploadImage
  simp [hpay, hex]

theorem objectsAt_uploadFile (remote : RemoteState) (path : String) (content : Nat) :
    objectsAt (uploadFile remote path content).2 path = 1 := by
  unfold objectsAt uploadFile
  simp [List.filter_filter]

theorem fileExists_uploadFile (remote : RemoteState) (path : String) (content : Nat) :
    fileExists (uploadFile remote path content).2 path = some content := by
  simp [fileExists, uploadFile]

/-- C2 (amended): for every capture with a valid image payload (the
uploader's own test: new-format `imageData` present, or a non-empty
legacy `imageBlob`), if the deterministic remote path already has
content, `uploadImage` performs no write and reports
`skipped = true`; consequently, after any successful upload, the path
holds exactly one object when that call wrote, and a second upload of
the same capture writes nothing and reports `skipped = true`. (A capture
with no payload at all instead raises the no-image-data error before the
existence probe, which is the one correction to the claim.) -/
theorem C2_uploadImage_idempotent (remote : RemoteState) (c : Capture) (sessionId : String)
    (hpay : (hasImageData c || hasNonEmptyBlob c) = true) :
    (∀ content, fileExists remote (imagePath sessionId c.sequenceNum) = some content →
      uploadImage remote c sessionId =
        .ok ({ url := imagePath sessionId c.sequenceNum, skipped := true }, remote)) ∧
    (∀ r1 remote1, uploadImage remote c sessionId = .ok (r1, remote1) →
      (r1.skipped = false → objectsAt remote1 (imagePath sessionId c.sequenceNum) = 1) ∧
      uploadImage remote1 c sessionId =
        .ok ({ url := imagePath sessionId c.sequenceNum, skipped := true }, remote1)) := by
  constructor
  · intro content hex
    exact uploadImage_skips_existing remote c sessionId hpay content hex
  · intro r1 remote1 h1
    cases hex : fileExists remote (imagePath sessionId c.sequenceNum) with
    | some content =>
        rw [uploadImage_skips_existing remote c sessionId hpay content hex] at h1
        simp only [Except.ok.injEq, Prod.mk.injEq] at h1
        obtain ⟨hr, hrem⟩ := h1
        subst hrem
        constructor
        · intro hsk
          rw [← hr] at hsk
          simp at hsk
        · exact uploadImage_skips_existing remote c sessionId hpay content hex
    | none =>
        unfold uploadImage at h1
        simp only [hpay, Bool.not_true, Bool.false_eq_true, if_false, hex] at h1
        by_cases hsz : (captureImageSize c == 0) = true
        · simp [hsz] at h1
        · rw [Bool.not_eq_true] at hsz
          simp only [hsz, Bool.false_eq_true, if_false, Except.ok.injEq,
            Prod.mk.injEq] at h1
          obtain ⟨hr, hrem⟩ := h1
          subst hrem
          constructor
          · intro _
            exact objectsAt_uploadFile remote _ _
          · exact uploadImage_skips_existing _ c sessionId hpay _
              (fileExists_uploadFile remote _ _)

def c2Cap : Capture :=
  { id := 1, sessionId := "s2", sequenceNum := 3, timestamp := 0
    imageData := some 4, imageSizeBytes := 4 }

def c2Remote0 : RemoteState := { files := [] }

def c2Remote1 : RemoteState := { files := [(imagePath "s2" 3, 4)] }

/-- Witness for C2: a concrete capture uploaded into an empty remote,
then uploaded again — the second call skips and the path holds exactly
one object. -/
theorem C2_uploadImage_idempotent_witness :
    ((hasImageData c2Cap || hasNonEmptyBlob c2Cap) = true ∧
      uploadImage c2Remote0 c2Cap "s2" =
        .ok ({ url := imagePath "s2" 3, skipped := false }, c2Remote1)) ∧
    (objectsAt c2Remote1 (imagePath "s2" 3) = 1 ∧
      uploadImage c2Remote1 c2Cap "s2" =
        .ok ({ url := imagePath "s2" 3, skipped := true }, c2Remote1)) := by
  have h := C2_uploadImage_idempotent c2Remote0 c2Cap "s2" (by decide)
  have h2 := h.2 { url := imagePath "s2" 3, skipped := false } c2Remote1 (by decide)
  exact ⟨⟨by decide, by decide⟩, ⟨h2.1 rfl, h2.2⟩⟩

def c2BadCap : Capture :=
  { id := 9, sessionId := "sX", sequenceNum := 1, timestamp := 0, imageSizeBytes := 0 }

def c2BadRemote : RemoteState := { files := [(imagePath "sX" 1, 9)] }

/-- Counterexample to C2 as stated: a capture holding no image payload at
all (no `imageData`, no `imageBlob`) whose deterministic remote path
already has content. The claim says `uploadImage` returns with
`skipped = true`; the code rejects with the no-image-data error before
the existence probe runs. -/
theorem C2_counterexample :
    fileExists c2BadRemote (imagePath "sX" 1) = some 9 ∧
    uploadImage c2BadRemote c2BadCap "sX" = .error (.noImageData 1) := by
  decide

/-! ### Retry-loop lemmas -/

/-- Whether an attempt outcome is a failure. -/
def isErrOutcome : UpOutcome → Bool
  | .ok _ => false
  | .err _ => true

theorem retryGo_attemptsMade_le (f : Nat → UpOutcome) (maxRetries : Nat) :
    ∀ (fuel attempt : Nat) (lastErr : String) (waits : List (Nat × Nat)),
      1 ≤ attempt →
      (retryGo f maxRetries fuel attempt lastErr waits).attemptsMade ≤ attempt + fuel - 1 := by
  intro fuel
  induction fuel with
  | zero =>
      intro attempt lastErr waits h1
      simp [retryGo]
  | succ n ih =>
      intro attempt lastErr waits h1
      unfold retryGo
      cases f attempt with
      | ok r => dsimp only; omega
      | err msg =>
          by_cases hrl : isRateLimited msg = true
          · simp only [hrl, if_true]
            have := ih (attempt + 1) msg ((attempt, 60000) :: waits) (by omega)
            omega
          · rw [Bool.not_eq_true] at hrl
            simp only [hrl, Bool.false_eq_true, if_false]
            by_cases hlt : attempt < maxRetries
            · simp only [if_pos hlt]
              have := ih (attempt + 1) msg
                ((attempt, min (1000 * 2 ^ attempt) 60000) :: waits) (by omega)
              omega
            · simp only [if_neg hlt]
              have := ih (attempt + 1) msg waits (by omega)
              omega

/-- The per-wait characterization: every wait the retry loop inserts
belongs to a failed attempt and is either the fixed 60 s rate-limit
cooldown or the capped exponential backoff. -/
def WaitSpec (f : Nat → UpOutcome) (p : Nat × Nat) : Prop :=
  ∃ msg, f p.1 = .err msg ∧
    ((isRateLimited msg = true ∧ p.2 = 60000) ∨
     (isRateLimited msg = false ∧ p.2 = min (1000 * 2 ^ p.1) 60000))

theorem retryGo_waits (f : Nat → UpOutcome) (maxRetries : Nat) :
    ∀ (fuel attempt : Nat) (lastErr : String) (waits : List (Nat × Nat)),
      (∀ p ∈ waits, WaitSpec f p) →
      ∀ p ∈ (retryGo f maxRetries fuel attempt lastErr waits).waits, WaitSpec f p := by
  intro fuel
  induction fuel with
  | zero =>
      intro attempt lastErr waits hacc p hp
      simp only [retryGo, List.mem_reverse] at hp
      exact hacc p hp
  | succ n ih =>
      intro attempt lastErr waits hacc p hp
      rw [retryGo] at hp
      cases hf : f attempt with
      | ok r =>
          rw [hf] at hp
          simp only [List.mem_reverse] at hp
          exact hacc p hp
      | err msg =>
          rw [hf] at hp
          by_cases hrl : isRateLimited msg = true
          · simp only [hrl, if_true] at hp
            refine ih (attempt + 1) msg _ ?_ p hp
            intro q hq
            rcases List.mem_cons.mp hq with rfl | hq
            · exact ⟨msg, hf, Or.inl ⟨hrl, rfl⟩⟩
            · exact hacc q hq
          · rw [Bool.not_eq_true] at hrl
            simp only [hrl, Bool.false_eq_true, if_false] at hp
            by_cases hlt : attempt < maxRetries
            · simp only [if_pos hlt] at hp
              refine ih (attempt + 1) msg _ ?_ p hp
              intro q hq
              rcases List.mem_cons.mp hq with rfl | hq
              · exact ⟨msg, hf, Or.inr ⟨hrl, rfl⟩⟩
              · exact hacc q hq
            · simp only [if_neg hlt] at hp
              exact ih (attempt + 1) msg _ hacc p hp

theorem retryGo_all_err (f : Nat → UpOutcome) (maxRetries : Nat) :
    ∀ (fuel attempt : Nat) (lastErr : String) (waits : List (Nat × Nat)),
      0 < fuel →
      (∀ a, attempt ≤ a → a < attempt + fuel → isErrOutcome (f a) = true) →
      ∃ m, f (attempt + fuel - 1) = .err m ∧
        (retryGo f maxRetries fuel attempt lastErr waits).result = .err m ∧
        (retryGo f maxRetries fuel attempt lastErr waits).attemptsMade =
          attempt + fuel - 1 := by
  intro fuel
  induction fuel with
  | zero => intro attempt lastErr waits h0; omega
  | succ n ih =>
      intro attempt lastErr waits _ hall
      have herr : isErrOutcome (f attempt) = true := hall attempt (le_refl _) (by omega)
      cases hf : f attempt with
      | ok r => rw [hf] at herr; simp [isErrOutcome] at herr
      | err msg =>
          have hstep : ∀ (waits' : List (Nat × Nat)),
              ∃ m, f (attempt + (n + 1) - 1) = .err m ∧
                (retryGo f maxRetries n (attempt + 1) msg waits').result = .err m ∧
                (retryGo f maxRetries n (attempt + 1) msg waits').attemptsMade =
                  attempt + (n + 1) - 1 := by
            intro waits'
            cases n with
            | zero =>
                refine ⟨msg, by simpa using hf, ?_, ?_⟩ <;> simp [retryGo]
            | succ k =>
                obtain ⟨m, hm1, hm2, hm3⟩ := ih (attempt + 1) msg waits' (by omega)
                  (fun a ha1 ha2 => hall a (by omega) (by omega))
                refine ⟨m, ?_, hm2, ?_⟩
                · have he : attempt + 1 + (k + 1) - 1 = attempt + (k + 1 + 1) - 1 := by
                    omega
                  rw [← he]
                  exact hm1
                · rw [hm3]
                  omega
          unfold retryGo
          rw [hf]
          by_cases hrl : isRateLimited msg = true
          · simp only [hrl, if_true]
            exact hstep _
          · rw [Bool.not_eq_true] at hrl
            simp only [hrl, Bool.false_eq_true, if_false]
            by_cases hlt : attempt < maxRetries
            · simp only [if_pos hlt]
              exact hstep _
            · simp only [if_neg hlt]
              exact hstep _

/-! ### Drain-loop lemmas -/

/-- Whether an item outcome is a success. -/
def isSuccessOutcome : ItemOutcome → Bool
  | .success _ => true
  | .failure _ => false

/-- The error text an item outcome carries (failures only). -/
def outcomeMsg : ItemOutcome → String
  | .success _ => ""
  | .failure m => m

/-- How many queue items the outcome oracle resolves. -/
def countSucc (outcomes : Capture → ItemOutcome) (q : List Capture) : Nat :=
  (q.filter (fun c => isSuccessOutcome (outcomes c))).length

/-- How many queue items the outcome oracle rejects. -/
def countFail (outcomes : Capture → ItemOutcome) (q : List Capture) : Nat :=
  (q.filter (fun c => !isSuccessOutcome (outcomes c))).length

theorem any_id_map_preserve (l : List Capture) (g : Capture → Capture)
    (hg : ∀ c, (g c).id = c.id) (k : Nat) :
    (l.map g).any (fun c => c.id == k) = l.any (fun c => c.id == k) := by
  induction l with
  | nil => rfl
  | cons a t ih => simp [ih, hg a]

theorem markCapturePublished_ok (st : StoreState) (cid : Nat) (url : String)
    (h : hasCaptureId st cid = true) :
    ∃ st1, markCapturePublished st cid url = .ok st1 ∧
      ∀ k, hasCaptureId st1 k = hasCaptureId st k := by
  obtain ⟨c, hc, hcid⟩ := List.any_eq_true.mp h
  unfold markCapturePublished
  cases hf : st.captures.find? (fun cc => cc.id == cid) with
  | none =>
      exact absurd (List.find?_eq_none.mp hf c hc) (by simp [hcid])
  | some c0 =>
      refine ⟨_, rfl, fun k => ?_⟩
      show (st.captures.map _).any _ = _
      exact any_id_map_preserve st.captures _ (fun cc => by split <;> rfl) k

theorem hasCaptureId_savePublishState (st : StoreState) (r : PublishState) (k : Nat) :
    hasCaptureId (savePublishState st r) k = hasCaptureId st k := rfl

/-- The core drain characterization: when the job is live and not paused
and every queued capture exists in the store, the drain processes every
item exactly once — the completed counter grows by the number of
successful items, the failed counter by the number of failed items, the
queue ends empty, each failed item contributes exactly one error event
(in queue order), and the capture-id population of the store is
unchanged. -/
theorem drain_spec (outcomes : Capture → ItemOutcome) :
    ∀ (q : List Capture) (ps : PublisherState) (st : StoreState),
      ps.isPublishing = true → ps.isPaused = false → ps.queue = q →
      (∀ c ∈ q, hasCaptureId st c.id = true) →
      (drain outcomes q ps st).ps =
        { ps with
            completed := ps.completed + countSucc outcomes q
            failed := ps.failed + countFail outcomes q
            queue := [] } ∧
      (drain outcomes q ps st).events =
        (q.filter (fun c => !isSuccessOutcome (outcomes c))).map
          (fun c => Event.errorEvent (outcomeMsg (outcomes c)) c.sequenceNum) ∧
      (∀ k, hasCaptureId (drain outcomes q ps st).st k = hasCaptureId st k) := by
  intro q
  induction q with
  | nil =>
      intro ps st hpub hpause hq hcap
      refine ⟨?_, rfl, fun k => rfl⟩
      rcases ps with ⟨pub, paused, proc, cur, qf, comp, fl, tot, stt⟩
      simp only at hq
      simp [drain, countSucc, countFail, hq]
  | cons c rest ih =>
      intro ps st hpub hpause hq hcap
      have hcapc : hasCaptureId st c.id = true := hcap c (by simp)
      have hcond : (ps.isPublishing && !ps.isPaused) = true := by
        rw [hpub, hpause]; rfl
      cases ho : outcomes c with
      | success r =>
          obtain ⟨st1, hmk, hpres⟩ := markCapturePublished_ok st c.id r.url hcapc
          obtain ⟨h1, h2, h3⟩ := ih { ps with completed := ps.completed + 1, queue := rest }
            (savePublishState st1 (progressRecord
              { ps with completed := ps.completed + 1, queue := rest }))
            hpub hpause rfl
            (fun d hd => by
              rw [hasCaptureId_savePublishState, hpres]
              exact hcap d (by simp [hd]))
          simp only [drain, hcond, ho, hmk, if_true]
          refine ⟨?_, ?_, ?_⟩
          · rw [h1]
            simp [countSucc, countFail, List.filter_cons, ho, isSuccessOutcome]
            omega
          · rw [h2]
            simp [List.filter_cons, ho, isSuccessOutcome]
          · intro k
            rw [h3 k, hasCaptureId_savePublishState, hpres]
      | failure msg =>
          obtain ⟨h1, h2, h3⟩ := ih { ps with failed := ps.failed + 1, queue := rest } st
            hpub hpause rfl (fun d hd => hcap d (by simp [hd]))
          simp only [drain, hcond, ho, if_true]
          refine ⟨?_, ?_, ?_⟩
          · rw [h1]
            simp [countSucc, countFail, List.filter_cons, ho, isSuccessOutcome]
            omega
          · rw [h2]
            simp [List.filter_cons, ho, isSuccessOutcome, outcomeMsg]
          · intro k
            exact h3 k

/-! ### C4 -/

/-- C4: the per-item upload makes at most 5 attempts; every wait the
retry loop inserts belongs to a failed attempt and is either the fixed
60 s rate-limit cooldown (no added exponential growth) or the
exponential backoff `min(1000·2^attempt, 60000)` — all waits capped at
60 s; when every one of the 5 attempts fails, the loop makes exactly 5
attempts and propagates the last attempt's error; and the drain loop
counts each failed item once, emits exactly one error event per failed
item, ends with an empty queue (the item is never re-queued), and
advances past failures. -/
theorem C4_retry_policy (f : Nat → UpOutcome) :
    (uploadWithRetry f).attemptsMade ≤ 5 ∧
    (∀ p ∈ (uploadWithRetry f).waits,
      (∃ msg, f p.1 = .err msg ∧
        ((isRateLimited msg = true ∧ p.2 = 60000) ∨
         (isRateLimited msg = false ∧ p.2 = min (1000 * 2 ^ p.1) 60000))) ∧
      p.2 ≤ 60000) ∧
    ((∀ a, 1 ≤ a → a ≤ 5 → isErrOutcome (f a) = true) →
      ∃ m, f 5 = .err m ∧ (uploadWithRetry f).result = .err m ∧
        (uploadWithRetry f).attemptsMade = 5) ∧
    (∀ (outcomes : Capture → ItemOutcome) (q : List Capture) (ps : PublisherState)
        (st : StoreState), ps.isPublishing = true → ps.isPaused = false →
        ps.queue = q → (∀ c ∈ q, hasCaptureId st c.id = true) →
        (drain outcomes q ps st).ps.failed = ps.failed + countFail outcomes q ∧
        (drain outcomes q ps st).ps.queue = [] ∧
        (drain outcomes q ps st).events =
          (q.filter (fun c => !isSuccessOutcome (outcomes c))).map
            (fun c => Event.errorEvent (outcomeMsg (outcomes c)) c.sequenceNum)) := by
  refine ⟨?_, ?_, ?_, ?_⟩
  · have h := retryGo_attemptsMade_le f 5 5 1 "Upload failed after all retries" []
      (by omega)
    simpa [uploadWithRetry] using h
  · intro p hp
    have hws := retryGo_waits f 5 5 1 "Upload failed after all retries" []
      (by simp) p hp
    obtain ⟨msg, hmsg, hcase⟩ := hws
    refine ⟨⟨msg, hmsg, hcase⟩, ?_⟩
    rcases hcase with ⟨_, hw⟩ | ⟨_, hw⟩
    · omega
    · rw [hw]
      exact min_le_right _ _
  · intro hall
    have h := retryGo_all_err f 5 5 1 "Upload failed after all retries" []
      (by omega) (fun a h1 h2 => hall a h1 (by omega))
    simpa [uploadWithRetry] using h
  · intro outcomes q ps st hpub hpause hq hcap
    obtain ⟨h1, h2, h3⟩ := drain_spec outcomes q ps st hpub hpause hq hcap
    exact ⟨by rw [h1], by rw [h1], h2⟩

def c4f : Nat → UpOutcome := fun _ => .err "boom"

/-- Witness for C4: an attempt oracle that always fails with a
non-rate-limited error — 5 attempts, the backoff sequence 2 s, 4 s, 8 s,
16 s, and the last error propagated. -/
theorem C4_retry_policy_witness :
    ((∀ a, 1 ≤ a → a ≤ 5 → isErrOutcome (c4f a) = true) ∧
      (uploadWithRetry c4f).attemptsMade = 5 ∧
      (uploadWithRetry c4f).result = .err "boom" ∧
      (uploadWithRetry c4f).waits = [(1, 2000), (2, 4000), (3, 8000), (4, 16000)]) ∧
    (∃ m, c4f 5 = .err m ∧ (uploadWithRetry c4f).result = .err m ∧
      (uploadWithRetry c4f).attemptsMade = 5) :=
  ⟨⟨by decide, by decide, by decide, by decide⟩,
    (C4_retry_policy c4f).2.2.1 (by decide)⟩

/-! ### C7 -/

/-- C7: when the drain exhausts the queue and the finishing phase
succeeds, the final session status is `published` when the failed count
is 0 and `partially_published` otherwise; the final record is persisted,
`isPublishing` is cleared, and the completion callback fires with
`{completed, failed, total}` as the last emitted event. -/
theorem C7_finish_final_status (outcomes : Capture → ItemOutcome) (now : Nat)
    (ps : PublisherState) (st : StoreState) (session : Session)
    (hpub : ps.isPublishing = true) (hpause : ps.isPaused = false)
    (hproc : ps.isProcessing = false) (hcur : ps.currentSession = some session)
    (hcap : ∀ c ∈ ps.queue, hasCaptureId st c.id = true) :
    (processQueue outcomes true now ps st).1.completed =
        ps.completed + countSucc outcomes ps.queue ∧
    (processQueue outcomes true now ps st).1.failed =
        ps.failed + countFail outcomes ps.queue ∧
    (processQueue outcomes true now ps st).1.isPublishing = false ∧
    (processQueue outcomes true now ps st).1.currentSession =
      some { session with status :=
        if 0 < ps.failed + countFail outcomes ps.queue then
          SessionStatus.partially_published
        else SessionStatus.published } ∧
    { session with status :=
        if 0 < ps.failed + countFail outcomes ps.queue then
          SessionStatus.partially_published
        else SessionStatus.published } ∈
      (processQueue outcomes true now ps st).2.1.sessions ∧
    (processQueue outcomes true now ps st).2.2.getLast? =
      some (Event.completeEvent (ps.completed + countSucc outcomes ps.queue)
        (ps.failed + countFail outcomes ps.queue) ps.total) := by
  unfold processQueue
  simp only [hproc, Bool.false_eq_true, if_false]
  obtain ⟨h1, h2, _h3⟩ := drain_spec outcomes ps.queue { ps with isProcessing := true } st
    hpub hpause rfl hcap
  rw [h1, h2]
  simp only [List.isEmpty_nil, hpub, Bool.and_self, if_true, finishPublish, hcur,
    savePublishState]
  refine ⟨trivial, trivial, trivial, trivial, ?_, ?_⟩
  · exact mem_updateSession_self _ _
  · exact List.getLast?_concat _

def c7Capture (id seq : Nat) : Capture :=
  { id := id, sessionId := "w7", sequenceNum := seq, timestamp := seq
    imageBlob := some (seq + 1), imageSizeBytes := seq + 1 }

def c7Caps : List Capture := [c7Capture 1 1, c7Capture 2 2, c7Capture 3 3]

def c7Session : Session :=
  { id := "w7", name := "W7", createdAt := "t", status := SessionStatus.publishing
    captureCount := 3, totalBytes := 9, avgImageSize := 3, duration := 0
    startTime := 0, lastCaptureTime := some 3 }

def c7Store : StoreState :=
  { sessions := [c7Session], captures := c7Caps, publishStates := []
    nextCaptureId := 4 }

/-- The scenario's attempt oracle: item 2 always fails with a permanent
(non-rate-limited) error, the others upload on the first attempt. -/
def c7Attempt (c : Capture) : Nat → UpOutcome := fun _ =>
  if c.sequenceNum == 2 then .err "corrupt image payload"
  else .ok { url := imagePath "w7" c.sequenceNum, skipped := false }

/-- The item outcome each queue entry's full retry loop reports. -/
def c7Outcomes (c : Capture) : ItemOutcome := traceOutcome (uploadWithRetry (c7Attempt c))

def c7Ps : PublisherState :=
  { isPublishing := true, isPaused := false, isProcessing := false
    currentSession := some c7Session, queue := c7Caps, completed := 0, failed := 0
    total := 3, startTime := 11 }

/-- Witness for C7: the claim's scenario — 3 eligible captures, 2
succeed, 1 exhausts its 5 retries with a permanent error; the run ends
`partially_published` with completed = 2, failed = 1, total = 3. -/
theorem C7_finish_final_status_witness :
    (c7Ps.isPublishing = true ∧ c7Ps.isPaused = false ∧ c7Ps.isProcessing = false ∧
      c7Ps.currentSession = some c7Session ∧
      (∀ c ∈ c7Ps.queue, hasCaptureId c7Store c.id = true) ∧
      countSucc c7Outcomes c7Ps.queue = 2 ∧ countFail c7Outcomes c7Ps.queue = 1 ∧
      (uploadWithRetry (c7Attempt (c7Capture 2 2))).attemptsMade = 5) ∧
    ((processQueue c7Outcomes true 99 c7Ps c7Store).1.completed =
        c7Ps.completed + countSucc c7Outcomes c7Ps.queue ∧
    (processQueue c7Outcomes true 99 c7Ps c7Store).1.failed =
        c7Ps.failed + countFail c7Outcomes c7Ps.queue ∧
    (processQueue c7Outcomes true 99 c7Ps c7Store).1.isPublishing = false ∧
    (processQueue c7Outcomes true 99 c7Ps c7Store).1.currentSession =
      some { c7Session with status :=
        if 0 < c7Ps.failed + countFail c7Outcomes c7Ps.queue then
          SessionStatus.partially_published
        else SessionStatus.published } ∧
    { c7Session with status :=
        if 0 < c7Ps.failed + countFail c7Outcomes c7Ps.queue then
          SessionStatus.partially_published
        else SessionStatus.published } ∈
      (processQueue c7Outcomes true 99 c7Ps c7Store).2.1.sessions ∧
    (processQueue c7Outcomes true 99 c7Ps c7Store).2.2.getLast? =
      some (Event.completeEvent (c7Ps.completed + countSucc c7Outcomes c7Ps.queue)
        (c7Ps.failed + countFail c7Outcomes c7Ps.queue) c7Ps.total)) :=
  ⟨⟨rfl, rfl, rfl, rfl, by decide, by decide, by decide, by decide⟩,
    C7_finish_final_status c7Outcomes 99 c7Ps c7Store c7Session rfl rfl rfl rfl
      (by decide)⟩

/-! ### C5 -/

theorem cancelPollsFrom_eq (settles : Nat) :
    ∀ (remaining waitCount : Nat),
      cancelPollsFrom settles remaining waitCount =
        max waitCount (min settles (waitCount + remaining)) := by
  intro remaining
  induction remaining with
  | zero =>
      intro w
      simp only [cancelPollsFrom]
      omega
  | succ r ih =>
      intro w
      rw [cancelPollsFrom]
      by_cases h : w < settles
      · rw [if_pos h, ih (w + 1)]
        omega
      · rw [if_neg h]
        omega

theorem cancelWaitPolls_eq (settles : Nat) : cancelWaitPolls settles = min settles 50 := by
  rw [cancelWaitPolls, cancelPollsFrom_eq]
  omega

theorem find?_append_not_any (p : Session → Bool) :
    ∀ l1 l2 : List Session, l1.any p = false → (l1 ++ l2).find? p = l2.find? p := by
  intro l1
  induction l1 with
  | nil => intro l2 _; rfl
  | cons a t ih =>
      intro l2 h
      simp only [List.any_cons, Bool.or_eq_false_iff] at h
      have hpa : ¬p a = true := by simp [h.1]
      rw [List.cons_append, List.find?_cons_of_neg _ hpa, ih l2 h.2]

theorem find?_map_replace (s : Session) :
    ∀ l : List Session, l.any (fun t => t.id == s.id) = true →
      (l.map (fun t => if t.id == s.id then s else t)).find?
        (fun t => t.id == s.id) = some s := by
  intro l
  induction l with
  | nil => intro h; simp at h
  | cons a t ih =>
      intro h
      by_cases ha : (a.id == s.id) = true
      · simp only [List.map_cons, if_pos ha]
        exact List.find?_cons_of_pos _ (by simp)
      · rw [Bool.not_eq_true] at ha
        have ht : t.any (fun t => t.id == s.id) = true := by
          simpa [List.any_cons, ha] using h
        simp only [List.map_cons, if_neg (by simp [ha] : ¬(a.id == s.id) = true)]
        rw [List.find?_cons_of_neg _ (by simp [ha])]
        exact ih ht

theorem getSession_updateSession_self (st : StoreState) (s : Session) :
    getSession (updateSession st s) s.id = some s := by
  unfold getSession updateSession
  by_cases h : st.sessions.any (fun t => t.id == s.id) = true
  · simp only [h, if_true]
    exact find?_map_replace s st.sessions h
  · rw [Bool.not_eq_true] at h
    simp only [h, Bool.false_eq_true, if_false]
    rw [find?_append_not_any _ _ _ h]
    exact List.find?_cons_of_pos _ (by simp)

/-- C5 (amended): `cancelPublish` polls for the in-flight drain iteration
at most 50 times (50 × 100 ms ≈ 5 s); when the iteration settles within
that bound the call returns exactly when it has settled; and regardless
of the bound, when a current session exists in the store, after the call
returns that session's persisted status is `stopped` — never left
`publishing` — and the job flags and queue are cleared. (The claim's
unconditional "returns only after any in-flight iteration has settled"
does not hold: the wait is bounded, see the counterexample.) -/
theorem C5_cancelPublish_stops (ps : PublisherState) (st : StoreState) (settles : Nat)
    (session sess : Session)
    (hcur : ps.currentSession = some session)
    (hsess : getSession st session.id = some sess) :
    (cancelPublish ps st settles).2.2 ≤ 50 ∧
    (settles ≤ 50 → settledOnCancelReturn settles = true) ∧
    getSession (cancelPublish ps st settles).2.1 session.id =
      some { sess with status := SessionStatus.stopped } ∧
    (cancelPublish ps st settles).1.isPublishing = false ∧
    (cancelPublish ps st settles).1.isPaused = false ∧
    (cancelPublish ps st settles).1.queue = [] := by
  have hid : sess.id = session.id := by
    unfold getSession at hsess
    have hp := List.find?_some hsess
    simpa using hp
  have hpolls : (cancelPublish ps st settles).2.2 = cancelWaitPolls settles := by
    unfold cancelPublish
    simp [hcur, hsess]
  refine ⟨?_, ?_, ?_, ?_, ?_, ?_⟩
  · rw [hpolls, cancelWaitPolls_eq]
    omega
  · intro hle
    unfold settledOnCancelReturn
    rw [cancelWaitPolls_eq]
    simp
    omega
  · have hst : (cancelPublish ps st settles).2.1 =
        updateSession st { sess with status := SessionStatus.stopped } := by
      unfold cancelPublish
      simp [hcur, hsess]
    rw [hst]
    have := getSession_updateSession_self st { sess with status := SessionStatus.stopped }
    simpa [hid] using this
  · unfold cancelPublish
    simp [hcur, hsess]
  · unfold cancelPublish
    simp [hcur, hsess]
  · unfold cancelPublish
    simp [hcur, hsess]

def c5Session : Session :=
  { id := "w5", name := "W5", createdAt := "t", status := SessionStatus.publishing
    captureCount := 1, totalBytes := 1, avgImageSize := 1, duration := 0
    startTime := 0, lastCaptureTime := some 1 }

def c5Store : StoreState :=
  { sessions := [c5Session], captures := [], publishStates := [], nextCaptureId := 1 }

def c5Ps : PublisherState :=
  { isPublishing := true, isPaused := false, isProcessing := true
    currentSession := some c5Session, queue := [], completed := 0, failed := 0
    total := 1, startTime := 0 }

/-- Counterexample to C5 as stated: an in-flight drain iteration that
settles only after 600 polls (a 60 s rate-limit cooldown at one poll per
100 ms). The claim says `cancelPublish` returns only after the in-flight
iteration has settled; the code's wait loop gives up after 50 polls
(~5 s) and proceeds while the iteration is still running. -/
theorem C5_counterexample :
    (cancelPublish c5Ps c5Store 600).2.2 = 50 ∧
    settledOnCancelReturn 600 = false := by
  decide

/-- Witness for C5: an iteration that settles after 3 polls — the cancel
returns after it settles and the session ends `stopped`. -/
theorem C5_cancelPublish_stops_witness :
    (c5Ps.currentSession = some c5Session ∧
      getSession c5Store c5Session.id = some c5Session ∧ (3 : Nat) ≤ 50) ∧
    ((cancelPublish c5Ps c5Store 3).2.2 ≤ 50 ∧
    ((3 : Nat) ≤ 50 → settledOnCancelReturn 3 = true) ∧
    getSession (cancelPublish c5Ps c5Store 3).2.1 c5Session.id =
      some { c5Session with status := SessionStatus.stopped } ∧
    (cancelPublish c5Ps c5Store 3).1.isPublishing = false ∧
    (cancelPublish c5Ps c5Store 3).1.isPaused = false ∧
    (cancelPublish c5Ps c5Store 3).1.queue = []) :=
  ⟨⟨rfl, by decide, by decide⟩,
    C5_cancelPublish_stops c5Ps c5Store 3 c5Session c5Session rfl (by decide)⟩

end StreetSurvey
